import Mathlib

/-!
Shallow embedding of the resilience layer of the mercadolibre-biller
integration: the webhook dedup gate (`WebhookDedupeStore`), the circuit
breaker (`CircuitBreakerV2`), the error store (`ErrorStore`), the lookup
cache (`BillerSearchCache`) and the reconciliation service
(`ReconciliationService._reconciliar`).  JavaScript `Map`s are modelled as
association lists with replace-first insertion, `Set`s as duplicate-free
lists, and `Date.now()` timestamps as explicit `Int` parameters threaded
through every operation that reads the clock.
-/

/-- Association-list lookup, mirroring `Map.get`: the first pair whose key
matches wins. -/
def assocLookup {α : Type} (l : List (String × α)) (k : String) : Option α :=
  (l.find? (fun p => p.1 = k)).map Prod.snd

/-- Association-list insertion, mirroring `Map.set`: replace the first pair
with the given key, or append a fresh pair at the end. -/
def assocSet {α : Type} (l : List (String × α)) (k : String) (v : α) :
    List (String × α) :=
  match l with
  | [] => [(k, v)]
  | p :: rest =>
    if p.1 = k then (k, v) :: rest else p :: assocSet rest k v

/-- Association-list removal, mirroring `Map.delete` on a map with unique
keys. -/
def assocDelete {α : Type} (l : List (String × α)) (k : String) :
    List (String × α) :=
  l.filter (fun p => p.1 ≠ k)

/-- JavaScript `list.slice(0, e)`: a nonnegative end index truncates from the
front, a negative end index drops that many elements from the back. -/
def jsSliceTo {α : Type} (l : List α) (e : Int) : List α :=
  if 0 ≤ e then l.take e.toNat else l.take (l.length - (-e).toNat)

/-- JavaScript `x || d` for an optional numeric option: `0` and absent both
fall back to the default. -/
def jsOrNum (x : Option Int) (d : Int) : Int :=
  match x with
  | none => d
  | some v => if v = 0 then d else v

/-- JavaScript `Math.round` on an exact rational: floor of `q + 1/2` (halves
round up). -/
def jsRound (q : ℚ) : Int := ⌊q + 1/2⌋

/-- `Math.round((num/den)*100)` for natural `num`, `den`, computed in exact
integer arithmetic; `roundPct_eq_jsRound` below proves it agrees with
`jsRound` on the rational value. -/
def roundPct (num den : Nat) : Nat := (200 * num + den) / (2 * den)

namespace Dedup

/-- State of `WebhookDedupeStore`: the `inProgress` set, the
`processed` map from key to completion timestamp, and the dedup window. -/
structure State where
  inProgress : List String
  processed : List (String × Int)
  windowMs : Int
deriving Repr, DecidableEq

/-- `new WebhookDedupeStore(windowMs)`: empty sets. -/
def init (windowMs : Int) : State :=
  { inProgress := [], processed := [], windowMs := windowMs }

/-- The composite event key, `` `${topic}:${resourceId}` ``. -/
def mkKey (topic resourceId : String) : String :=
  topic ++ ":" ++ resourceId

/-- `WebhookDedupeStore.tryAcquire`: reject if the key is in flight or in the
processed map; otherwise mark it in flight and admit. -/
def tryAcquire (topic resourceId : String) (s : State) : Bool × State :=
  let key := mkKey topic resourceId
  if key ∈ s.inProgress then
    (false, s)
  else if (assocLookup s.processed key).isSome then
    (false, s)
  else
    (true, { s with inProgress := s.inProgress ++ [key] })

/-- `WebhookDedupeStore.complete`: drop the key from the in-flight set and
stamp it processed at the current time. -/
def complete (topic resourceId : String) (now : Int) (s : State) : State :=
  let key := mkKey topic resourceId
  { s with
    inProgress := s.inProgress.filter (fun k => k ≠ key)
    processed := assocSet s.processed key now }

/-- `WebhookDedupeStore.release`: drop the key from the in-flight set without
marking it processed. -/
def release (topic resourceId : String) (s : State) : State :=
  let key := mkKey topic resourceId
  { s with inProgress := s.inProgress.filter (fun k => k ≠ key) }

/-- `WebhookDedupeStore.cleanup`: the background sweep removes processed
entries whose timestamp is strictly below `now - windowMs`. -/
def cleanup (now : Int) (s : State) : State :=
  let cutoff := now - s.windowMs
  { s with processed := s.processed.filter (fun p => ¬ p.2 < cutoff) }

/-- One timestamped operation on the dedup store. -/
inductive Op where
  | tryAcquire (topic resourceId : String)
  | complete (topic resourceId : String) (now : Int)
  | release (topic resourceId : String)
  | cleanup (now : Int)
deriving Repr, DecidableEq

/-- Apply one operation, discarding the admission verdict. -/
def applyOp (s : State) (op : Op) : State :=
  match op with
  | .tryAcquire t r => (tryAcquire t r s).2
  | .complete t r now => complete t r now s
  | .release t r => release t r s
  | .cleanup now => cleanup now s

/-- Run a trace of operations from the freshly constructed store. -/
def run (windowMs : Int) (ops : List Op) : State :=
  ops.foldl applyOp (init windowMs)

end Dedup

namespace CB

/-- The JavaScript error objects `CircuitBreakerV2` inspects: a `code`, a
`message` and an HTTP-ish `status`, each possibly absent. -/
structure JsError where
  code : Option String
  message : Option String
  status : Option Int
deriving Repr, DecidableEq

/-- `message?.includes('timeout')` — substring test on the optional
message. -/
def messageHasTimeout (m : Option String) : Bool :=
  match m with
  | none => false
  | some s => decide ("timeout".toList <:+: s.toList)

/-- The three circuit states. -/
inductive CBState where
  | CLOSED
  | OPEN
  | HALF_OPEN
deriving Repr, DecidableEq

/-- One entry of `metrics.callsInWindow`. -/
structure CallRecord where
  timestamp : Int
  success : Bool
  latency : Int
  error : Option String
deriving Repr, DecidableEq

/-- The `metrics` sub-object of `CircuitBreakerV2`. -/
structure Metrics where
  totalCalls : Int
  successfulCalls : Int
  failedCalls : Int
  rejectedCalls : Int
  timeouts : Int
  latencies : List Int
  callsInWindow : List CallRecord
deriving Repr, DecidableEq

/-- A `CircuitBreakerV2` instance: configuration resolved by the constructor
(`options.x || default`), plus the mutable state and metrics. -/
structure Breaker where
  failureThreshold : Int
  successThreshold : Int
  timeout : Int
  volumeThreshold : Int
  windowDuration : Int
  isFailure : JsError → Bool
  state : CBState
  failures : Int
  successes : Int
  consecutiveSuccesses : Int
  nextAttemptTime : Option Int
  lastFailureTime : Option Int
  lastSuccessTime : Option Int
  metrics : Metrics

/-- The constructor with its `options.x || default` resolution and initial
CLOSED state. -/
def mkBreaker (failureThreshold successThreshold timeout volumeThreshold
    windowDuration : Option Int) (isFailure : Option (JsError → Bool)) :
    Breaker :=
  { failureThreshold := jsOrNum failureThreshold 5
    successThreshold := jsOrNum successThreshold 2
    timeout := jsOrNum timeout 30000
    volumeThreshold := jsOrNum volumeThreshold 5
    windowDuration := jsOrNum windowDuration 60000
    isFailure := isFailure.getD (fun _ => true)
    state := .CLOSED
    failures := 0
    successes := 0
    consecutiveSuccesses := 0
    nextAttemptTime := none
    lastFailureTime := none
    lastSuccessTime := none
    metrics :=
      { totalCalls := 0, successfulCalls := 0, failedCalls := 0
        rejectedCalls := 0, timeouts := 0, latencies := [], callsInWindow := [] } }

/-- `_cleanupMetrics`: keep window records strictly newer than
`now - windowDuration` and only the last 100 latencies. -/
def cleanupMetrics (now : Int) (b : Breaker) : Breaker :=
  let cutoff := now - b.windowDuration
  let win := b.metrics.callsInWindow.filter (fun c => cutoff < c.timestamp)
  let lats :=
    if 100 < b.metrics.latencies.length then
      b.metrics.latencies.drop (b.metrics.latencies.length - 100)
    else b.metrics.latencies
  { b with metrics := { b.metrics with callsInWindow := win, latencies := lats } }

/-- `_shouldOpen`: prune the window, require the volume threshold, then
compare the failure counter against the failure threshold.  Returns the
verdict together with the pruned breaker, because `_cleanupMetrics` mutates
`this`. -/
def shouldOpen (now : Int) (b : Breaker) : Bool × Breaker :=
  let b := cleanupMetrics now b
  if (b.metrics.callsInWindow.length : Int) < b.volumeThreshold then
    (false, b)
  else
    (b.failures ≥ b.failureThreshold, b)

/-- `_transitionTo`: set the new state and its entry actions (arming the
retry timer on OPEN, clearing counters on HALF_OPEN/CLOSED). -/
def transitionTo (newState : CBState) (now : Int) (b : Breaker) : Breaker :=
  let b := { b with state := newState }
  match newState with
  | .OPEN => { b with nextAttemptTime := some (now + b.timeout) }
  | .HALF_OPEN => { b with consecutiveSuccesses := 0 }
  | .CLOSED => { b with failures := 0, consecutiveSuccesses := 0 }

/-- `canExecute`: CLOSED passes, OPEN passes only once the clock reaches the
armed `nextAttemptTime` (transitioning to HALF_OPEN), HALF_OPEN passes.  A
`null` `nextAttemptTime` coerces to `0` under the JavaScript `>=`. -/
def canExecute (now : Int) (b : Breaker) : Bool × Breaker :=
  match b.state with
  | .CLOSED => (true, b)
  | .OPEN =>
    if now ≥ (b.nextAttemptTime.getD 0) then
      (true, transitionTo .HALF_OPEN now b)
    else
      (false, b)
  | .HALF_OPEN => (true, b)

/-- `recordSuccess`: bump counters and the window, then close from HALF_OPEN
after `successThreshold` consecutive successes, or reset the failure counter
while CLOSED. -/
def recordSuccess (now latency : Int) (b : Breaker) : Breaker :=
  let b :=
    { b with
      successes := b.successes + 1
      consecutiveSuccesses := b.consecutiveSuccesses + 1
      lastSuccessTime := some now
      metrics :=
        { b.metrics with
          totalCalls := b.metrics.totalCalls + 1
          successfulCalls := b.metrics.successfulCalls + 1
          latencies := b.metrics.latencies ++ [latency]
          callsInWindow := b.metrics.callsInWindow ++
            [({ timestamp := now, success := true, latency := latency
                error := none } : CallRecord)] } }
  match b.state with
  | .HALF_OPEN =>
    if b.consecutiveSuccesses ≥ b.successThreshold then
      transitionTo .CLOSED now b
    else b
  | .CLOSED => { b with failures := 0 }
  | .OPEN => b

/-- The counter/metric prefix of `recordFailure`: bump the failure counters,
stamp the time, append to latencies and the window, and count a timeout when
the error's code is `ETIMEDOUT` or its message mentions `timeout`. -/
def recordFailureBase (now latency : Int) (err : Option JsError) (b : Breaker) :
    Breaker :=
  let b :=
    { b with
      failures := b.failures + 1
      consecutiveSuccesses := 0
      lastFailureTime := some now
      metrics :=
        { b.metrics with
          totalCalls := b.metrics.totalCalls + 1
          failedCalls := b.metrics.failedCalls + 1
          latencies := b.metrics.latencies ++ [latency]
          callsInWindow := b.metrics.callsInWindow ++
            [({ timestamp := now, success := false, latency := latency
                error := err.bind (fun e => e.message) } : CallRecord)] } }
  match err with
  | some e =>
    if e.code = some "ETIMEDOUT" ∨ messageHasTimeout e.message then
      { b with metrics := { b.metrics with timeouts := b.metrics.timeouts + 1 } }
    else b
  | none => b

/-- `recordFailure`: the counter/metric bumps of `recordFailureBase`, then
reopen from HALF_OPEN on any failure, or open from CLOSED when `_shouldOpen`
says so. -/
def recordFailure (now latency : Int) (err : Option JsError) (b : Breaker) :
    Breaker :=
  let b := recordFailureBase now latency err b
  match b.state with
  | .HALF_OPEN => transitionTo .OPEN now b
  | .CLOSED =>
    let (opn, b) := shouldOpen now b
    if opn then transitionTo .OPEN now b else b
  | .OPEN => b

/-- `recordRejection`: only the rejected-calls counter moves. -/
def recordRejection (b : Breaker) : Breaker :=
  { b with metrics := { b.metrics with rejectedCalls := b.metrics.rejectedCalls + 1 } }

/-- Outcome of `execute`: the protected call's value, the fallback-less
`CircuitOpenError`, or the rethrown error of the call. -/
inductive ExecResult (α : Type) where
  | ok (v : α)
  | circuitOpen
  | err (e : JsError)
deriving Repr, DecidableEq

/-- `execute`: reject (recording only a rejection) when `canExecute` says no,
otherwise run the protected call — whose behaviour is the `outcome` oracle —
recording a success, or a failure when `isFailure` accepts the thrown error,
and rethrowing.  `now` is the clock at entry, `now2` at completion of the
call. -/
def execute {α : Type} (now now2 : Int) (outcome : Except JsError α)
    (fallback : Option α) (b : Breaker) : ExecResult α × Breaker :=
  let (allowed, b) := canExecute now b
  if allowed then
    match outcome with
    | .ok v => (.ok v, recordSuccess now2 (now2 - now) b)
    | .error e =>
      if b.isFailure e then (.err e, recordFailure now2 (now2 - now) (some e) b)
      else (.err e, recordSuccess now2 (now2 - now) b)
  else
    let b := recordRejection b
    match fallback with
    | some v => (.ok v, b)
    | none => (.circuitOpen, b)

end CB

namespace ErrStore

/-- One record of the `ErrorStore`, restricted to the fields its retention
logic reads: the creation timestamp (an ISO string in the source, kept here
as the instant it encodes) and the `resolved` flag. -/
structure ErrEntry where
  timestamp : Int
  resolved : Bool
deriving Repr, DecidableEq

/-- `ErrorStore` state: the id-keyed error map and the resolved
`maxErrors` bound (`options.maxErrors || 1000`). -/
structure Store where
  errors : List (String × ErrEntry)
  maxErrors : Nat
deriving Repr, DecidableEq

/-- The comparator of `_cleanup`'s sort, `(a, b) => new Date(b[1].timestamp)
- new Date(a[1].timestamp)`: `a` sorts before `b` when strictly newer, ties
keep their original order (the source's `sort` is stable). -/
def newestFirst (a b : String × ErrEntry) : Prop :=
  b.2.timestamp < a.2.timestamp

instance (a b : String × ErrEntry) : Decidable (newestFirst a b) :=
  inferInstanceAs (Decidable (b.2.timestamp < a.2.timestamp))

/-- `ErrorStore._cleanup`: nothing below the bound; above it, sort newest
first (the source's stable `sort`, modelled as a stable insertion sort),
keep all unresolved plus the most recent resolved via
`resolved.slice(0, maxErrors - unresolved.length)`, and finally truncate the
whole list with `.slice(0, maxErrors)`. -/
def cleanup (s : Store) : Store :=
  if s.errors.length ≤ s.maxErrors then s
  else
    let sorted := List.insertionSort newestFirst s.errors
    let unresolved := sorted.filter (fun p => ¬ p.2.resolved)
    let resolvedL := sorted.filter (fun p => p.2.resolved)
    let toKeep :=
      (unresolved ++ jsSliceTo resolvedL ((s.maxErrors : Int) - unresolved.length)).take
        s.maxErrors
    { s with errors := toKeep }

/-- `ErrorStore.recordError`, restricted to the modelled fields: insert a
fresh unresolved entry under a fresh id, then run the retention cleanup. -/
def recordError (id : String) (now : Int) (s : Store) : Store :=
  cleanup { s with errors := assocSet s.errors id { timestamp := now, resolved := false } }

/-- `ErrorStore.resolveError`: flip the `resolved` flag of an existing entry;
report whether the id was found. -/
def resolveError (id : String) (s : Store) : Bool × Store :=
  match assocLookup s.errors id with
  | none => (false, s)
  | some e => (true, { s with errors := assocSet s.errors id { e with resolved := true } })

end ErrStore

namespace Cache

/-- One entry of `BillerSearchCache`. -/
structure Entry (α : Type) where
  value : α
  createdAt : Int
  expiresAt : Int
  lastAccess : Int
  hits : Int
deriving Repr, DecidableEq

/-- `BillerSearchCache` state: resolved `ttl` and `maxSize`
(`options.x || default`), the entry map, and the counters. -/
structure BillerSearchCache (α : Type) where
  ttl : Int
  maxSize : Nat
  entries : List (String × Entry α)
  hits : Int
  misses : Int
  sets : Int
  evictions : Int
deriving Repr, DecidableEq

/-- `_generateKey`: `` `${type}:${key}` ``. -/
def genKey (type key : String) : String := type ++ ":" ++ key

/-- The loop of `_evictOne`: scan in insertion order for the entry with the
strictly smallest `lastAccess`, the first such entry winning ties. -/
def findOldest {α : Type} (l : List (String × Entry α)) : Option (String × Int) :=
  l.foldl
    (fun acc p =>
      match acc with
      | none => some (p.1, p.2.lastAccess)
      | some (k0, a0) => if p.2.lastAccess < a0 then some (p.1, p.2.lastAccess) else some (k0, a0))
    none

/-- `_evictOne`: delete the least-recently-accessed entry, if any, and count
the eviction. -/
def evictOne {α : Type} (c : BillerSearchCache α) : BillerSearchCache α :=
  match findOldest c.entries with
  | none => c
  | some (k0, _) =>
    { c with entries := assocDelete c.entries k0, evictions := c.evictions + 1 }

/-- `BillerSearchCache.get`: a missing key is a miss; an entry past its
expiry is deleted and is a miss; otherwise bump the hit counters and refresh
`lastAccess`. -/
def get {α : Type} (now : Int) (type key : String) (c : BillerSearchCache α) :
    Option α × BillerSearchCache α :=
  let cacheKey := genKey type key
  match assocLookup c.entries cacheKey with
  | none => (none, { c with misses := c.misses + 1 })
  | some e =>
    if e.expiresAt < now then
      (none, { c with entries := assocDelete c.entries cacheKey, misses := c.misses + 1 })
    else
      (some e.value,
        { c with
          hits := c.hits + 1
          entries := assocSet c.entries cacheKey
            { e with hits := e.hits + 1, lastAccess := now } })

/-- `BillerSearchCache.set`: resolve the TTL (`customTtl || this.ttl`), evict
one entry when inserting a fresh key into a full cache, then write the entry
and count the set. -/
def set {α : Type} (now : Int) (type key : String) (value : α)
    (customTtl : Option Int) (c : BillerSearchCache α) : BillerSearchCache α :=
  let cacheKey := genKey type key
  let ttl := jsOrNum customTtl c.ttl
  let c :=
    if decide (c.maxSize ≤ c.entries.length) && (assocLookup c.entries cacheKey).isNone then
      evictOne c
    else c
  { c with
    entries := assocSet c.entries cacheKey
      { value := value, createdAt := now, expiresAt := now + ttl
        lastAccess := now, hits := 0 }
    sets := c.sets + 1 }

end Cache

namespace Recon

/-- JavaScript truthiness of an optional string field: absent and the empty
string are falsy. -/
def jsTruthyStr (o : Option String) : Bool :=
  match o with
  | none => false
  | some s => s ≠ ""

/-- How an optional field renders inside a template literal: `undefined` when
absent. -/
def jsDisplay (o : Option String) : String :=
  match o with
  | none => "undefined"
  | some s => s

/-- `a || b` inside a template literal: the first operand unless falsy. -/
def jsOrDisplay (a b : Option String) : String :=
  if jsTruthyStr a then a.getD "" else jsDisplay b

/-- `DISCREPANCY_TYPES` of the reconciliation service. -/
inductive DiscType where
  | missing_in_biller
  | missing_in_local
  | data_mismatch
  | processing_error
  | pending_emission
deriving Repr, DecidableEq

/-- `SEVERITY` levels of the reconciliation service. -/
inductive Severity where
  | critical
  | high
  | medium
  | low
  | info
deriving Repr, DecidableEq

/-- A locally stored comprobante, restricted to the fields `_reconciliar`
and `_verificarConsistencia` read. -/
structure LocalComp where
  id : Option String
  key : Option String
  shopify_order_id : Option String
  tipo_comprobante : Option String
  serie : Option String
  numero : Option String
  cae_numero : Option String
deriving Repr, DecidableEq

/-- A comprobante as returned by Biller, restricted to the compared
fields. -/
structure BillerComp where
  tipo_comprobante : Option String
  serie : Option String
  numero : Option String
  cae_numero : Option String
deriving Repr, DecidableEq

/-- One field-level inconsistency reported by `_verificarConsistencia`. -/
structure Inconsistencia where
  campo : String
  localVal : String
  billerVal : String
deriving Repr, DecidableEq

/-- One guarded field comparison of `_verificarConsistencia`: both sides
truthy and different. -/
def fieldCheck (campo : String) (lv bv : Option String) : List Inconsistencia :=
  if jsTruthyStr lv && jsTruthyStr bv && decide (lv ≠ bv) then
    [{ campo := campo, localVal := lv.getD "", billerVal := bv.getD "" }]
  else []

/-- `_verificarConsistencia`: compare type, series, number and CAE. -/
def verificarConsistencia (l : LocalComp) (b : BillerComp) : List Inconsistencia :=
  fieldCheck "tipo_comprobante" l.tipo_comprobante b.tipo_comprobante ++
  fieldCheck "serie" l.serie b.serie ++
  fieldCheck "numero" l.numero b.numero ++
  fieldCheck "cae_numero" l.cae_numero b.cae_numero

/-- An error thrown by `billerClient.obtenerComprobante`. -/
structure FetchErr where
  status : Option Int
  message : String
deriving Repr, DecidableEq

/-- One discrepancy record pushed by `_reconciliar`. -/
structure Discrepancia where
  tipo : DiscType
  severity : Severity
  localRec : LocalComp
  billerRec : Option BillerComp
  inconsistencias : List Inconsistencia
  mensaje : String
  accionRecomendada : String
deriving Repr, DecidableEq

/-- How one local record fares in the reconciliation loop: an entry of the
`errores` list, an entry of the `discrepancias` list, or a verification. -/
inductive RecordOutcome where
  | fetchError (tipo : String) (msg : String)
  | disc (d : Discrepancia)
  | verified
deriving Repr, DecidableEq

/-- The remote-lookup prefix of the loop body: try `obtenerComprobante` by id
(a non-404 error aborts the record into the `errores` bucket, a 404 falls
through), then fall back to `buscarPorNumeroInterno` whose errors are
ignored. -/
def lookupRemote (ob : String → Except FetchErr (Option BillerComp))
    (bn : String → Except Unit (Option BillerComp)) (l : LocalComp) :
    Except (String × String) (Option BillerComp) :=
  let step1 : Except (String × String) (Option BillerComp) :=
    if jsTruthyStr l.id then
      match ob (l.id.getD "") with
      | .ok b => .ok b
      | .error e =>
        if e.status ≠ some 404 then .error ("biller_fetch_error", e.message)
        else .ok none
    else .ok none
  match step1 with
  | .error x => .error x
  | .ok bc =>
    if bc.isNone && jsTruthyStr l.shopify_order_id then
      match bn ("shopify-" ++ l.shopify_order_id.getD "") with
      | .ok b2 => .ok b2
      | .error _ => .ok none
    else .ok bc

/-- One iteration of the `_reconciliar` loop: classify the local record as a
fetch error, a `missing_in_biller` CRITICAL discrepancy, a `data_mismatch`
MEDIUM discrepancy, or verified. -/
def reconRecord (ob : String → Except FetchErr (Option BillerComp))
    (bn : String → Except Unit (Option BillerComp)) (l : LocalComp) :
    RecordOutcome :=
  match lookupRemote ob bn l with
  | .error (tipo, msg) => .fetchError tipo msg
  | .ok none =>
    .disc
      { tipo := .missing_in_biller
        severity := .critical
        localRec := l
        billerRec := none
        inconsistencias := []
        mensaje := "Comprobante " ++ jsOrDisplay l.id l.key ++ " no encontrado en Biller"
        accionRecomendada := "Verificar si la emisión falló y re-emitir si es necesario" }
  | .ok (some b) =>
    let inc := verificarConsistencia l b
    if inc.isEmpty then .verified
    else
      .disc
        { tipo := .data_mismatch
          severity := .medium
          localRec := l
          billerRec := some b
          inconsistencias := inc
          mensaje := "Datos inconsistentes para comprobante " ++ jsDisplay l.id
          accionRecomendada := "Actualizar datos locales con los de Biller" }

/-- The `resumen` block of the reconciliation report. -/
structure Resumen where
  total : Nat
  verificados : Nat
  discrepancias : Nat
  errores : Nat
  tasaExito : Nat
deriving Repr, DecidableEq

/-- The reconciliation report built by `_reconciliar`, restricted to its
deterministic content: summary, discrepancy list, error list and severity
histogram. -/
structure Resultado where
  resumen : Resumen
  discrepancias : List Discrepancia
  errores : List (String × String)
  sevCritical : Nat
  sevHigh : Nat
  sevMedium : Nat
  sevLow : Nat
deriving Repr, DecidableEq

/-- `_reconciliar`: run the loop over every local record and aggregate the
three buckets, the success rate (`Math.round((verificados/total)*100)`, `100`
on an empty run) and the severity histogram. -/
def reconciliar (ob : String → Except FetchErr (Option BillerComp))
    (bn : String → Except Unit (Option BillerComp))
    (locals : List LocalComp) : Resultado :=
  let outcomes := locals.map (reconRecord ob bn)
  let discs := outcomes.filterMap
    (fun o => match o with | .disc d => some d | _ => none)
  let errs := outcomes.filterMap
    (fun o => match o with | .fetchError t m => some (t, m) | _ => none)
  let vers := (outcomes.filter
    (fun o => match o with | .verified => true | _ => false)).length
  let total := locals.length
  { resumen :=
      { total := total
        verificados := vers
        discrepancias := discs.length
        errores := errs.length
        tasaExito := if 0 < total then roundPct vers total else 100 }
    discrepancias := discs
    errores := errs
    sevCritical := (discs.filter (fun d => d.severity = .critical)).length
    sevHigh := (discs.filter (fun d => d.severity = .high)).length
    sevMedium := (discs.filter (fun d => d.severity = .medium)).length
    sevLow := (discs.filter (fun d => d.severity = .low)).length }

end Recon

/-- The scenario breaker: `failureThreshold=3, volumeThreshold=1`, all other
options defaulted. -/
def scenarioBreaker0 : CB.Breaker :=
  CB.mkBreaker (some 3) none none (some 1) none none

/-- The scenario breaker after three recorded failures at times 1000, 2000
and 3000. -/
def scenarioBreaker3 : CB.Breaker :=
  CB.recordFailure 3000 0 none
    (CB.recordFailure 2000 0 none
      (CB.recordFailure 1000 0 none scenarioBreaker0))

/-- An error store over its capacity (`maxErrors = 1`) holding two
unresolved entries and one resolved entry. -/
def scenarioErrStore : ErrStore.Store :=
  { errors := [("e1", { timestamp := 30, resolved := false }),
               ("e2", { timestamp := 20, resolved := false }),
               ("e3", { timestamp := 10, resolved := true })]
    maxErrors := 1 }

/-- An empty two-slot lookup cache with the default five-minute TTL. -/
def scenarioCache : Cache.BillerSearchCache Nat :=
  { ttl := 300000, maxSize := 2, entries := [], hits := 0, misses := 0
    sets := 0, evictions := 0 }

/-- A local comprobante that the scenario remote has a matching record
for. -/
def scenarioLocal1 : Recon.LocalComp :=
  { id := some "A", key := some "shopify-1", shopify_order_id := some "1"
    tipo_comprobante := some "101", serie := some "A", numero := some "1"
    cae_numero := none }

/-- A local comprobante with no remote match. -/
def scenarioLocal2 : Recon.LocalComp :=
  { id := some "B", key := some "shopify-2", shopify_order_id := some "2"
    tipo_comprobante := some "101", serie := some "A", numero := some "2"
    cae_numero := none }

/-- The remote record matching `scenarioLocal1`. -/
def scenarioBiller1 : Recon.BillerComp :=
  { tipo_comprobante := some "101", serie := some "A", numero := some "1"
    cae_numero := none }

/-- Scenario primary lookup: finds only id `A`; everything else is a 404. -/
def scenarioObtener : String → Except Recon.FetchErr (Option Recon.BillerComp) :=
  fun k => if k = "A" then .ok (some scenarioBiller1) else .error { status := some 404, message := "not found" }

/-- Scenario fallback lookup: finds nothing. -/
def scenarioBuscar : String → Except Unit (Option Recon.BillerComp) :=
  fun _ => .ok none

section AssocLemmas

variable {α : Type}

theorem assocLookup_nil (k : String) : assocLookup ([] : List (String × α)) k = none := rfl

theorem assocLookup_cons (p : String × α) (l : List (String × α)) (k : String) :
    assocLookup (p :: l) k = if p.1 = k then some p.2 else assocLookup l k := by
  by_cases h : p.1 = k <;> simp [assocLookup, List.find?_cons, h]

theorem assocLookup_assocSet_self (l : List (String × α)) (k : String) (v : α) :
    assocLookup (assocSet l k v) k = some v := by
  induction l with
  | nil => simp [assocSet, assocLookup_cons, assocLookup_nil]
  | cons p rest ih =>
    by_cases h : p.1 = k
    · simp [assocSet, h, assocLookup_cons]
    · simp [assocSet, h, assocLookup_cons, ih]

theorem assocLookup_assocSet_ne (l : List (String × α)) (k k' : String) (v : α)
    (h : k ≠ k') : assocLookup (assocSet l k v) k' = assocLookup l k' := by
  induction l with
  | nil => simp [assocSet, assocLookup_cons, assocLookup_nil, h]
  | cons p rest ih =>
    by_cases hp : p.1 = k
    · simp [assocSet, hp, assocLookup_cons, h, hp ▸ h]
    · simp [assocSet, hp, assocLookup_cons, ih]

theorem assocLookup_eq_none_of_not_memKeys (l : List (String × α)) (k : String)
    (h : k ∉ l.map Prod.fst) : assocLookup l k = none := by
  induction l with
  | nil => rfl
  | cons p rest ih =>
    simp only [List.map_cons, List.mem_cons] at h
    push_neg at h
    rw [assocLookup_cons, if_neg (fun hh => h.1 hh.symm), ih h.2]

theorem assocLookup_filter_none (q : String × α → Bool) (l : List (String × α))
    (k : String) (h : assocLookup l k = none) :
    assocLookup (l.filter q) k = none := by
  induction l with
  | nil => rfl
  | cons p rest ih =>
    rw [assocLookup_cons] at h
    by_cases hp : p.1 = k
    · simp [hp] at h
    · rw [if_neg hp] at h
      by_cases hq : q p
      · simp only [List.filter_cons, hq, if_pos]
        rw [assocLookup_cons, if_neg hp]
        exact ih h
      · simp only [List.filter_cons, hq]
        exact ih h

theorem assocLookup_filterSnd_nodup (q : α → Bool) (l : List (String × α))
    (k : String) (hnd : (l.map Prod.fst).Nodup) :
    assocLookup (l.filter (fun p => q p.2)) k =
      (assocLookup l k).bind (fun v => if q v then some v else none) := by
  induction l with
  | nil => rfl
  | cons p rest ih =>
    simp only [List.map_cons, List.nodup_cons] at hnd
    rw [List.filter_cons]
    by_cases hq : q p.2 = true
    · rw [if_pos hq, assocLookup_cons, assocLookup_cons]
      by_cases hp : p.1 = k
      · rw [if_pos hp, if_pos hp]
        simp [hq]
      · rw [if_neg hp, if_neg hp]
        exact ih hnd.2
    · rw [if_neg hq]
      by_cases hp : p.1 = k
      · have hres : assocLookup rest k = none :=
          assocLookup_eq_none_of_not_memKeys rest k (hp ▸ hnd.1)
        rw [assocLookup_filter_none _ _ _ hres, assocLookup_cons, if_pos hp]
        simp [hq]
      · rw [assocLookup_cons, if_neg hp]
        exact ih hnd.2

theorem assocSet_map_fst_of_mem (l : List (String × α)) (k : String) (v : α)
    (h : k ∈ l.map Prod.fst) :
    (assocSet l k v).map Prod.fst = l.map Prod.fst := by
  induction l with
  | nil => simp at h
  | cons p rest ih =>
    by_cases hp : p.1 = k
    · simp [assocSet, hp]
    · simp only [List.map_cons, List.mem_cons] at h
      rcases h with h | h

      · exact absurd h.symm hp
      · simp [assocSet, hp, ih h]

theorem assocSet_of_not_memKeys (l : List (String × α)) (k : String) (v : α)
    (h : k ∉ l.map Prod.fst) : assocSet l k v = l ++ [(k, v)] := by
  induction l with
  | nil => rfl
  | cons p rest ih =>
    simp only [List.map_cons, List.mem_cons] at h
    push_neg at h
    simp [assocSet, h.1, Ne.symm h.1, ih h.2]

theorem assocSet_nodupKeys (l : List (String × α)) (k : String) (v : α)
    (hnd : (l.map Prod.fst).Nodup) : ((assocSet l k v).map Prod.fst).Nodup := by
  by_cases h : k ∈ l.map Prod.fst
  · rw [assocSet_map_fst_of_mem l k v h]; exact hnd
  · rw [assocSet_of_not_memKeys l k v h]
    simp only [List.map_append, List.map_cons, List.map_nil]
    refine List.Nodup.append hnd (List.nodup_singleton k) ?_
    rw [List.disjoint_singleton]
    exact h

end AssocLemmas

namespace Dedup

/-- The dedup-gate invariant: no key is both in flight and in the processed
map. -/
def Inv (s : State) : Prop :=
  ∀ k, k ∈ s.inProgress → assocLookup s.processed k = none

theorem inv_init (w : Int) : Inv (init w) := by
  intro k hk
  exact absurd hk (List.not_mem_nil k)

theorem inv_applyOp (s : State) (op : Op) (h : Inv s) : Inv (applyOp s op) := by
  cases op with
  | tryAcquire t r =>
    intro k hk
    simp only [applyOp, tryAcquire] at hk ⊢
    by_cases h1 : mkKey t r ∈ s.inProgress
    · rw [if_pos h1] at hk ⊢
      exact h k hk
    · rw [if_neg h1] at hk ⊢
      by_cases h2 : (assocLookup s.processed (mkKey t r)).isSome
      · rw [if_pos h2] at hk ⊢
        exact h k hk
      · rw [if_neg h2] at hk ⊢
        simp only [List.mem_append, List.mem_singleton] at hk
        rcases hk with hk | hk
        · exact h k hk
        · subst hk
          simp only [Option.isSome] at h2
          cases hv : assocLookup s.processed (mkKey t r) with
          | none => rfl
          | some v => rw [hv] at h2; simp at h2
  | complete t r now =>
    intro k hk
    simp only [applyOp, complete, List.mem_filter] at hk
    have hne : k ≠ mkKey t r := by simpa using hk.2
    simp only [applyOp, complete]
    rw [assocLookup_assocSet_ne _ _ _ _ (Ne.symm hne)]
    exact h k hk.1
  | release t r =>
    intro k hk
    simp only [applyOp, release, List.mem_filter] at hk
    exact h k hk.1
  | cleanup now =>
    intro k hk
    simp only [applyOp, cleanup] at hk ⊢
    exact assocLookup_filter_none _ _ _ (h k hk)

theorem inv_run (w : Int) (ops : List Op) : Inv (run w ops) := by
  suffices hgen : ∀ (l : List Op) (s : State), Inv s → Inv (l.foldl applyOp s) by
    exact hgen ops (init w) (inv_init w)
  intro l
  induction l with
  | nil => intro s hs; exact hs
  | cons op rest ih =>
    intro s hs
    exact ih (applyOp s op) (inv_applyOp s op hs)

end Dedup

/-- C1.  Dedup gate mutual exclusion: on a key that is neither in flight nor
recently processed, `tryAcquire` admits; a second `tryAcquire` on the same
key with no intervening `complete`/`release` is always rejected; and on every
state reachable by any trace of operations from a fresh store, no key is ever
simultaneously in flight and in the processed map. -/
theorem c1_dedup_mutual_exclusion (s : Dedup.State) (topic resourceId : String)
    (w : Int) (ops : List Dedup.Op) (k : String)
    (hin : Dedup.mkKey topic resourceId ∉ s.inProgress)
    (hpr : assocLookup s.processed (Dedup.mkKey topic resourceId) = none) :
    (Dedup.tryAcquire topic resourceId s).1 = true
    ∧ (∀ s' : Dedup.State,
        (Dedup.tryAcquire topic resourceId
          (Dedup.tryAcquire topic resourceId s').2).1 = false)
    ∧ ¬(k ∈ (Dedup.run w ops).inProgress ∧
        (assocLookup (Dedup.run w ops).processed k).isSome) := by
  refine ⟨?_, ?_, ?_⟩
  · simp [Dedup.tryAcquire, hin, hpr]
  · intro s'
    simp only [Dedup.tryAcquire]
    by_cases h1 : Dedup.mkKey topic resourceId ∈ s'.inProgress
    · simp [h1]
    · by_cases h2 : (assocLookup s'.processed (Dedup.mkKey topic resourceId)).isSome
      · simp [h1, h2]
      · simp [h1, h2]
  · rintro ⟨hmem, hsome⟩
    rw [Dedup.inv_run w ops k hmem] at hsome
    simp at hsome

/-- Witness for C1 at the concrete key `orders/paid:42` on a fresh
5-minute-window store. -/
theorem c1_dedup_mutual_exclusion_witness :
    (Dedup.tryAcquire "orders/paid" "42" (Dedup.init 300000)).1 = true
    ∧ (∀ s' : Dedup.State,
        (Dedup.tryAcquire "orders/paid" "42"
          (Dedup.tryAcquire "orders/paid" "42" s').2).1 = false)
    ∧ ¬("orders/paid:42" ∈ (Dedup.run 300000 []).inProgress ∧
        (assocLookup (Dedup.run 300000 []).processed "orders/paid:42").isSome) :=
  c1_dedup_mutual_exclusion (Dedup.init 300000) "orders/paid" "42" 300000 []
    "orders/paid:42" (by simp [Dedup.init]) (by simp [Dedup.init, assocLookup])

namespace Dedup

theorem tryAcquire_false_iff (topic resourceId : String) (s : State) :
    (tryAcquire topic resourceId s).1 = false ↔
      mkKey topic resourceId ∈ s.inProgress ∨
        (assocLookup s.processed (mkKey topic resourceId)).isSome := by
  simp only [tryAcquire]
  by_cases h1 : mkKey topic resourceId ∈ s.inProgress
  · simp [h1]
  · by_cases h2 : (assocLookup s.processed (mkKey topic resourceId)).isSome
    · simp [h1, h2]
    · simp [h1, h2]

end Dedup

/-- C2.  Dedup window semantics, with the background sweep applied at the
moment of the call: `tryAcquire` after a `cleanup` at time `now` is rejected
exactly when the key is in flight or carries a completion stamp within
`windowMs` of `now`; after `complete` at `t0`, a swept `tryAcquire` at
`now1` with `now1 - t0` within the window is rejected, and a swept
`tryAcquire` at `now2` with `now2 - t0` beyond the window is admitted. -/
theorem c2_dedup_window_semantics (s : Dedup.State) (topic resourceId : String)
    (now now1 now2 t0 : Int)
    (hnd : (s.processed.map Prod.fst).Nodup)
    (h1 : now1 - t0 ≤ s.windowMs) (h2 : s.windowMs < now2 - t0) :
    ((Dedup.tryAcquire topic resourceId (Dedup.cleanup now s)).1 = false ↔
      Dedup.mkKey topic resourceId ∈ s.inProgress ∨
        ∃ t, assocLookup s.processed (Dedup.mkKey topic resourceId) = some t ∧
          now - t ≤ s.windowMs)
    ∧ (Dedup.tryAcquire topic resourceId
        (Dedup.cleanup now1 (Dedup.complete topic resourceId t0 s))).1 = false
    ∧ (Dedup.tryAcquire topic resourceId
        (Dedup.cleanup now2 (Dedup.complete topic resourceId t0 s))).1 = true := by
  refine ⟨?_, ?_, ?_⟩
  · rw [Dedup.tryAcquire_false_iff]
    have hip : (Dedup.cleanup now s).inProgress = s.inProgress := rfl
    have hpr : (Dedup.cleanup now s).processed =
        List.filter (fun p => decide (¬ p.2 < now - s.windowMs)) s.processed := rfl
    have hflt := assocLookup_filterSnd_nodup
      (fun v : Int => decide (¬ v < now - s.windowMs)) s.processed
      (Dedup.mkKey topic resourceId) hnd
    rw [hip, hpr, hflt]
    refine or_congr Iff.rfl ?_
    cases hv : assocLookup s.processed (Dedup.mkKey topic resourceId) with
    | none => simp
    | some t =>
      rw [Option.some_bind]
      by_cases ht : t < now - s.windowMs
      · simp [ht]
        omega
      · simp [ht]
        omega
  · have hnd1 := assocSet_nodupKeys s.processed (Dedup.mkKey topic resourceId) t0 hnd
    rw [Dedup.tryAcquire_false_iff]
    refine Or.inr ?_
    have hpr : (Dedup.cleanup now1 (Dedup.complete topic resourceId t0 s)).processed =
        List.filter (fun p => decide (¬ p.2 < now1 - s.windowMs))
          (assocSet s.processed (Dedup.mkKey topic resourceId) t0) := rfl
    have hflt := assocLookup_filterSnd_nodup
      (fun v : Int => decide (¬ v < now1 - s.windowMs))
      (assocSet s.processed (Dedup.mkKey topic resourceId) t0)
      (Dedup.mkKey topic resourceId) hnd1
    rw [hpr, hflt, assocLookup_assocSet_self, Option.some_bind]
    have hc : ¬ t0 < now1 - s.windowMs := by omega
    simp [hc]
  · have hnd1 := assocSet_nodupKeys s.processed (Dedup.mkKey topic resourceId) t0 hnd
    have hpr : (Dedup.cleanup now2 (Dedup.complete topic resourceId t0 s)).processed =
        List.filter (fun p => decide (¬ p.2 < now2 - s.windowMs))
          (assocSet s.processed (Dedup.mkKey topic resourceId) t0) := rfl
    have hlk : assocLookup
        (Dedup.cleanup now2 (Dedup.complete topic resourceId t0 s)).processed
        (Dedup.mkKey topic resourceId) = none := by
      have hflt := assocLookup_filterSnd_nodup
        (fun v : Int => decide (¬ v < now2 - s.windowMs))
        (assocSet s.processed (Dedup.mkKey topic resourceId) t0)
        (Dedup.mkKey topic resourceId) hnd1
      rw [hpr, hflt, assocLookup_assocSet_self, Option.some_bind]
      have hc : t0 < now2 - s.windowMs := by omega
      simp [hc]
    have hnin : Dedup.mkKey topic resourceId ∉
        (Dedup.cleanup now2 (Dedup.complete topic resourceId t0 s)).inProgress := by
      have hipr : (Dedup.cleanup now2 (Dedup.complete topic resourceId t0 s)).inProgress =
          s.inProgress.filter (fun k => k ≠ Dedup.mkKey topic resourceId) := rfl
      rw [hipr]
      simp [List.mem_filter]
    simp [Dedup.tryAcquire, hnin, hlk]

/-- Witness for C2: a store whose only processed key is `orders/paid:42`,
completed at `t0 = 100000`, with a 5-minute window; swept calls at 200000
(within the window) and 500000 (beyond it). -/
theorem c2_dedup_window_semantics_witness :
    ((Dedup.tryAcquire "orders/paid" "42"
        (Dedup.cleanup 200000 (Dedup.State.mk [] [("orders/paid:42", 100000)] 300000))).1 = false ↔
      Dedup.mkKey "orders/paid" "42" ∈
          (Dedup.State.mk [] [("orders/paid:42", 100000)] 300000).inProgress ∨
        ∃ t, assocLookup (Dedup.State.mk [] [("orders/paid:42", 100000)] 300000).processed
            (Dedup.mkKey "orders/paid" "42") = some t ∧
          200000 - t ≤ (Dedup.State.mk [] [("orders/paid:42", 100000)] 300000).windowMs)
    ∧ (Dedup.tryAcquire "orders/paid" "42"
        (Dedup.cleanup 200000 (Dedup.complete "orders/paid" "42" 100000
          (Dedup.State.mk [] [("orders/paid:42", 100000)] 300000)))).1 = false
    ∧ (Dedup.tryAcquire "orders/paid" "42"
        (Dedup.cleanup 500000 (Dedup.complete "orders/paid" "42" 100000
          (Dedup.State.mk [] [("orders/paid:42", 100000)] 300000)))).1 = true :=
  c2_dedup_window_semantics (Dedup.State.mk [] [("orders/paid:42", 100000)] 300000)
    "orders/paid" "42" 200000 200000 500000 100000 (by simp) (by norm_num) (by norm_num)

namespace CB

theorem recordFailureBase_state (now latency : Int) (err : Option JsError)
    (b : Breaker) : (recordFailureBase now latency err b).state = b.state := by
  cases err with
  | none => rfl
  | some e =>
    by_cases hc : e.code = some "ETIMEDOUT" ∨ messageHasTimeout e.message
    · simp [recordFailureBase, hc]
    · simp [recordFailureBase, hc]

theorem recordFailureBase_failures (now latency : Int) (err : Option JsError)
    (b : Breaker) : (recordFailureBase now latency err b).failures = b.failures + 1 := by
  cases err with
  | none => rfl
  | some e =>
    by_cases hc : e.code = some "ETIMEDOUT" ∨ messageHasTimeout e.message
    · simp [recordFailureBase, hc]
    · simp [recordFailureBase, hc]

theorem recordFailureBase_failureThreshold (now latency : Int) (err : Option JsError)
    (b : Breaker) :
    (recordFailureBase now latency err b).failureThreshold = b.failureThreshold := by
  cases err with
  | none => rfl
  | some e =>
    by_cases hc : e.code = some "ETIMEDOUT" ∨ messageHasTimeout e.message
    · simp [recordFailureBase, hc]
    · simp [recordFailureBase, hc]

theorem recordFailureBase_volumeThreshold (now latency : Int) (err : Option JsError)
    (b : Breaker) :
    (recordFailureBase now latency err b).volumeThreshold = b.volumeThreshold := by
  cases err with
  | none => rfl
  | some e =>
    by_cases hc : e.code = some "ETIMEDOUT" ∨ messageHasTimeout e.message
    · simp [recordFailureBase, hc]
    · simp [recordFailureBase, hc]

theorem recordFailureBase_timeout (now latency : Int) (err : Option JsError)
    (b : Breaker) : (recordFailureBase now latency err b).timeout = b.timeout := by
  cases err with
  | none => rfl
  | some e =>
    by_cases hc : e.code = some "ETIMEDOUT" ∨ messageHasTimeout e.message
    · simp [recordFailureBase, hc]
    · simp [recordFailureBase, hc]

theorem recordFailureBase_callsInWindow (now latency : Int) (err : Option JsError)
    (b : Breaker) :
    (recordFailureBase now latency err b).metrics.callsInWindow =
      b.metrics.callsInWindow ++
        [({ timestamp := now, success := false, latency := latency
            error := err.bind (fun e => e.message) } : CallRecord)] := by
  cases err with
  | none => rfl
  | some e =>
    by_cases hc : e.code = some "ETIMEDOUT" ∨ messageHasTimeout e.message
    · simp [recordFailureBase, hc]
    · simp [recordFailureBase, hc]

/-- `recordFailure` while CLOSED, written out: prune the window (including
the freshly appended failure), then open only when both the volume and the
failure thresholds are met. -/
theorem recordFailure_of_closed (now latency : Int) (err : Option JsError)
    (b : Breaker) (h : b.state = .CLOSED) :
    recordFailure now latency err b =
      (if ((cleanupMetrics now (recordFailureBase now latency err b)).metrics.callsInWindow.length : Int) <
          (recordFailureBase now latency err b).volumeThreshold then
        cleanupMetrics now (recordFailureBase now latency err b)
      else if (recordFailureBase now latency err b).failureThreshold ≤
          (recordFailureBase now latency err b).failures then
        transitionTo .OPEN now (cleanupMetrics now (recordFailureBase now latency err b))
      else cleanupMetrics now (recordFailureBase now latency err b)) := by
  have hs : (recordFailureBase now latency err b).state = .CLOSED := by
    rw [recordFailureBase_state]; exact h
  have evt : (cleanupMetrics now (recordFailureBase now latency err b)).volumeThreshold =
      (recordFailureBase now latency err b).volumeThreshold := rfl
  have eft : (cleanupMetrics now (recordFailureBase now latency err b)).failureThreshold =
      (recordFailureBase now latency err b).failureThreshold := rfl
  have efl : (cleanupMetrics now (recordFailureBase now latency err b)).failures =
      (recordFailureBase now latency err b).failures := rfl
  simp only [recordFailure, shouldOpen]
  split
  · rename_i heq
    rw [heq] at hs
    exact absurd hs (by decide)
  · simp only [evt, eft, efl]
    split
    · rename_i hv
      simp [hv]
    · rename_i hv
      by_cases hf : (recordFailureBase now latency err b).failureThreshold ≤
          (recordFailureBase now latency err b).failures
      · simp [hv, hf]
      · simp [hv, hf]
  · rename_i heq
    rw [heq] at hs
    exact absurd hs (by decide)

end CB

namespace CB

/-- `recordFailure` while HALF_OPEN reduces to an immediate reopen. -/
theorem recordFailure_of_halfOpen (now latency : Int) (err : Option JsError)
    (b : Breaker) (h : b.state = .HALF_OPEN) :
    recordFailure now latency err b =
      transitionTo .OPEN now (recordFailureBase now latency err b) := by
  have hs : (recordFailureBase now latency err b).state = .HALF_OPEN := by
    rw [recordFailureBase_state]; exact h
  simp only [recordFailure]
  split
  · rfl
  · rename_i heq
    rw [heq] at hs
    exact absurd hs (by decide)
  · rename_i heq
    rw [heq] at hs
    exact absurd hs (by decide)

end CB

/-- C3.  While CLOSED, a recorded failure opens the circuit exactly when the
incremented failure counter reaches `failureThreshold` and the pruned
trailing window (including the new failure) reaches `volumeThreshold`; the
failure counter always increments; and for the scenario breaker with
`failureThreshold=3, volumeThreshold=1`, three failures leave the state OPEN
with `canExecute()` false. -/
theorem c3_circuit_open_condition (b : CB.Breaker) (now latency : Int)
    (err : Option CB.JsError) (h : b.state = CB.CBState.CLOSED) :
    ((CB.recordFailure now latency err b).state = CB.CBState.OPEN ↔
      b.failureThreshold ≤ b.failures + 1 ∧
        b.volumeThreshold ≤
          ((CB.recordFailure now latency err b).metrics.callsInWindow.length : Int))
    ∧ (CB.recordFailure now latency err b).failures = b.failures + 1
    ∧ scenarioBreaker3.state = CB.CBState.OPEN
    ∧ (CB.canExecute 3000 scenarioBreaker3).1 = false := by
  have hb := CB.recordFailure_of_closed now latency err b h
  have hfl := CB.recordFailureBase_failures now latency err b
  have hft := CB.recordFailureBase_failureThreshold now latency err b
  have hvt := CB.recordFailureBase_volumeThreshold now latency err b
  have hmet : ∀ now' : Int,
      (CB.transitionTo .OPEN now' (CB.cleanupMetrics now (CB.recordFailureBase now latency err b))).metrics =
        (CB.cleanupMetrics now (CB.recordFailureBase now latency err b)).metrics :=
    fun _ => rfl
  have hcst : (CB.cleanupMetrics now (CB.recordFailureBase now latency err b)).state =
      CB.CBState.CLOSED := by
    have : (CB.cleanupMetrics now (CB.recordFailureBase now latency err b)).state =
        (CB.recordFailureBase now latency err b).state := rfl
    rw [this, CB.recordFailureBase_state]
    exact h
  have hcfl : (CB.cleanupMetrics now (CB.recordFailureBase now latency err b)).failures =
      (CB.recordFailureBase now latency err b).failures := rfl
  refine ⟨?_, ?_, by decide, by decide⟩
  · rw [hb]
    by_cases hv : ((CB.cleanupMetrics now (CB.recordFailureBase now latency err b)).metrics.callsInWindow.length : Int) <
        (CB.recordFailureBase now latency err b).volumeThreshold
    · rw [if_pos hv]
      rw [hvt] at hv
      constructor
      · intro hco
        rw [hcst] at hco
        exact absurd hco (by decide)
      · rintro ⟨-, hvol⟩
        omega
    · rw [if_neg hv]
      rw [hvt] at hv
      by_cases hf : (CB.recordFailureBase now latency err b).failureThreshold ≤
          (CB.recordFailureBase now latency err b).failures
      · rw [if_pos hf]
        rw [hft, hfl] at hf
        constructor
        · intro _
          exact ⟨hf, by rw [hmet]; omega⟩
        · intro _
          rfl
      · rw [if_neg hf]
        rw [hft, hfl] at hf
        constructor
        · intro hco
          rw [hcst] at hco
          exact absurd hco (by decide)
        · rintro ⟨hthr, -⟩
          omega
  · rw [hb]
    by_cases hv : ((CB.cleanupMetrics now (CB.recordFailureBase now latency err b)).metrics.callsInWindow.length : Int) <
        (CB.recordFailureBase now latency err b).volumeThreshold
    · rw [if_pos hv, hcfl, hfl]
    · rw [if_neg hv]
      by_cases hf : (CB.recordFailureBase now latency err b).failureThreshold ≤
          (CB.recordFailureBase now latency err b).failures
      · rw [if_pos hf]
        have : (CB.transitionTo .OPEN now (CB.cleanupMetrics now (CB.recordFailureBase now latency err b))).failures =
            (CB.cleanupMetrics now (CB.recordFailureBase now latency err b)).failures := rfl
        rw [this, hcfl, hfl]
      · rw [if_neg hf, hcfl, hfl]

/-- Witness for C3 at the scenario breaker (CLOSED, thresholds 3/1) with a
failure recorded at time 1000. -/
theorem c3_circuit_open_condition_witness :
    ((CB.recordFailure 1000 0 none scenarioBreaker0).state = CB.CBState.OPEN ↔
      scenarioBreaker0.failureThreshold ≤ scenarioBreaker0.failures + 1 ∧
        scenarioBreaker0.volumeThreshold ≤
          ((CB.recordFailure 1000 0 none scenarioBreaker0).metrics.callsInWindow.length : Int))
    ∧ (CB.recordFailure 1000 0 none scenarioBreaker0).failures = scenarioBreaker0.failures + 1
    ∧ scenarioBreaker3.state = CB.CBState.OPEN
    ∧ (CB.canExecute 3000 scenarioBreaker3).1 = false :=
  c3_circuit_open_condition scenarioBreaker0 1000 0 none rfl

/-- C4.  Circuit recovery cycle: while OPEN with the retry time not yet
reached, `canExecute` rejects and leaves the breaker untouched, and `execute`
never consults the protected call (its result is the same whatever the
dependency would have done); once the clock reaches the armed retry time the
next call is allowed and the state becomes HALF_OPEN; and a single recorded
failure while HALF_OPEN reopens the circuit with the retry timer restarted
to `now + timeout`. -/
theorem c4_circuit_recovery_cycle (b bh : CB.Breaker) (now now2 nowH latency T : Int)
    (err : Option CB.JsError)
    (hopen : b.state = CB.CBState.OPEN) (hT : b.nextAttemptTime = some T)
    (hbefore : now < T) (hafter : T ≤ now2)
    (hhalf : bh.state = CB.CBState.HALF_OPEN) :
    CB.canExecute now b = (false, b)
    ∧ (∀ (α : Type) (o1 o2 : Except CB.JsError α) (fb : Option α) (nowB : Int),
        CB.execute now nowB o1 fb b = CB.execute now nowB o2 fb b)
    ∧ (CB.canExecute now2 b).1 = true
    ∧ (CB.canExecute now2 b).2.state = CB.CBState.HALF_OPEN
    ∧ (CB.recordFailure nowH latency err bh).state = CB.CBState.OPEN
    ∧ (CB.recordFailure nowH latency err bh).nextAttemptTime =
        some (nowH + bh.timeout) := by
  have hce : CB.canExecute now b = (false, b) := by
    simp [CB.canExecute, hopen, hT, not_le.mpr hbefore]
  have hrf := CB.recordFailure_of_halfOpen nowH latency err bh hhalf
  refine ⟨hce, ?_, ?_, ?_, ?_, ?_⟩
  · intro α o1 o2 fb nowB
    simp [CB.execute, hce]
  · simp [CB.canExecute, hopen, hT, hafter]
  · simp [CB.canExecute, hopen, hT, hafter]
    rfl
  · rw [hrf]
    rfl
  · rw [hrf]
    have : (CB.transitionTo .OPEN nowH (CB.recordFailureBase nowH latency err bh)).nextAttemptTime =
        some (nowH + (CB.recordFailureBase nowH latency err bh).timeout) := rfl
    rw [this, CB.recordFailureBase_timeout]

/-- Witness for C4 at the opened scenario breaker (`nextAttemptTime = 33000`)
and the half-open breaker obtained by probing at 33000. -/
theorem c4_circuit_recovery_cycle_witness :
    CB.canExecute 3000 scenarioBreaker3 = (false, scenarioBreaker3)
    ∧ (∀ (α : Type) (o1 o2 : Except CB.JsError α) (fb : Option α) (nowB : Int),
        CB.execute 3000 nowB o1 fb scenarioBreaker3 =
          CB.execute 3000 nowB o2 fb scenarioBreaker3)
    ∧ (CB.canExecute 33000 scenarioBreaker3).1 = true
    ∧ (CB.canExecute 33000 scenarioBreaker3).2.state = CB.CBState.HALF_OPEN
    ∧ (CB.recordFailure 33500 0 none (CB.canExecute 33000 scenarioBreaker3).2).state =
        CB.CBState.OPEN
    ∧ (CB.recordFailure 33500 0 none (CB.canExecute 33000 scenarioBreaker3).2).nextAttemptTime =
        some (33500 + (CB.canExecute 33000 scenarioBreaker3).2.timeout) :=
  c4_circuit_recovery_cycle scenarioBreaker3 (CB.canExecute 33000 scenarioBreaker3).2
    3000 33000 33500 0 33000 none (by decide) (by decide) (by decide) (by decide) (by decide)

/-- C5.  Rejection accounting frame: while OPEN before the retry time,
`canExecute` is false and a rejected `execute` increments only
`rejectedCalls`, returning the fallback when one is given and the
circuit-open error otherwise; every other field of the breaker — state,
failure and success counters, window records, latencies — is unchanged, and
the protected call's would-be outcome is never consulted. -/
theorem c5_rejection_frame (b : CB.Breaker) (now T : Int)
    (hopen : b.state = CB.CBState.OPEN) (hT : b.nextAttemptTime = some T)
    (hbefore : now < T) :
    (CB.canExecute now b).1 = false
    ∧ (∀ (α : Type) (o : Except CB.JsError α) (fb : Option α) (nowB : Int),
        (CB.execute now nowB o fb b).2 =
          { b with metrics :=
              { b.metrics with rejectedCalls := b.metrics.rejectedCalls + 1 } })
    ∧ (∀ (α : Type) (o : Except CB.JsError α) (v : α) (nowB : Int),
        (CB.execute now nowB o (some v) b).1 = CB.ExecResult.ok v)
    ∧ (∀ (α : Type) (o : Except CB.JsError α) (nowB : Int),
        (CB.execute now nowB o (none : Option α) b).1 = CB.ExecResult.circuitOpen) := by
  have hce : CB.canExecute now b = (false, b) := by
    simp [CB.canExecute, hopen, hT, not_le.mpr hbefore]
  refine ⟨by rw [hce], ?_, ?_, ?_⟩
  · intro α o fb nowB
    cases fb with
    | none => simp [CB.execute, hce, CB.recordRejection]
    | some v => simp [CB.execute, hce, CB.recordRejection]
  · intro α o v nowB
    simp [CB.execute, hce]
  · intro α o nowB
    simp [CB.execute, hce]

/-- Witness for C5 at the opened scenario breaker, rejected at time 3000. -/
theorem c5_rejection_frame_witness :
    (CB.canExecute 3000 scenarioBreaker3).1 = false
    ∧ (∀ (α : Type) (o : Except CB.JsError α) (fb : Option α) (nowB : Int),
        (CB.execute 3000 nowB o fb scenarioBreaker3).2 =
          { scenarioBreaker3 with metrics :=
              { scenarioBreaker3.metrics with
                rejectedCalls := scenarioBreaker3.metrics.rejectedCalls + 1 } })
    ∧ (∀ (α : Type) (o : Except CB.JsError α) (v : α) (nowB : Int),
        (CB.execute 3000 nowB o (some v) scenarioBreaker3).1 = CB.ExecResult.ok v)
    ∧ (∀ (α : Type) (o : Except CB.JsError α) (nowB : Int),
        (CB.execute 3000 nowB o (none : Option α) scenarioBreaker3).1 =
          CB.ExecResult.circuitOpen) :=
  c5_rejection_frame scenarioBreaker3 3000 33000 (by decide) (by decide) (by decide)

namespace ErrStore

theorem cleanup_errors_of_le (s : Store) (h : s.errors.length ≤ s.maxErrors) :
    (cleanup s).errors = s.errors := by
  simp [cleanup, h]

theorem cleanup_errors_of_gt (s : Store) (h : ¬ s.errors.length ≤ s.maxErrors) :
    (cleanup s).errors =
      ((List.insertionSort newestFirst s.errors).filter (fun p => ¬ p.2.resolved) ++
        jsSliceTo ((List.insertionSort newestFirst s.errors).filter (fun p => p.2.resolved))
          ((s.maxErrors : Int) -
            ((List.insertionSort newestFirst s.errors).filter
              (fun p => ¬ p.2.resolved)).length)).take s.maxErrors := by
  simp [cleanup, h]

theorem pairwise_orderedInsert_desc (a : String × ErrEntry)
    (l : List (String × ErrEntry))
    (h : l.Pairwise (fun x y => y.2.timestamp ≤ x.2.timestamp)) :
    (List.orderedInsert newestFirst a l).Pairwise
      (fun x y => y.2.timestamp ≤ x.2.timestamp) := by
  induction l with
  | nil => simp [List.orderedInsert]
  | cons b t ih =>
    rw [List.pairwise_cons] at h
    simp only [List.orderedInsert]
    by_cases hr : newestFirst a b
    · rw [if_pos hr]
      refine List.Pairwise.cons ?_ (List.Pairwise.cons h.1 h.2)
      intro x hx
      have hba : b.2.timestamp < a.2.timestamp := hr
      rcases List.mem_cons.mp hx with hx | hx
      · subst hx
        omega
      · have := h.1 x hx
        omega
    · rw [if_neg hr]
      refine List.Pairwise.cons ?_ (ih h.2)
      intro x hx
      have hab : ¬ b.2.timestamp < a.2.timestamp := hr
      rw [List.mem_orderedInsert] at hx
      rcases hx with hx | hx
      · subst hx
        omega
      · exact h.1 x hx

theorem pairwise_insertionSort_desc (l : List (String × ErrEntry)) :
    (List.insertionSort newestFirst l).Pairwise
      (fun x y => y.2.timestamp ≤ x.2.timestamp) := by
  induction l with
  | nil => simp [List.insertionSort]
  | cons a t ih =>
    simp only [List.insertionSort]
    exact pairwise_orderedInsert_desc a _ ih

end ErrStore

/-- Counterexample to C6 as stated: a store over its bound (`maxErrors = 1`)
holding unresolved entries `e1`, `e2` and resolved entry `e3` — a mix — on
which cleanup evicts the unresolved entry `e2`. -/
theorem c6_retention_priority_counterexample :
    scenarioErrStore.maxErrors < scenarioErrStore.errors.length
    ∧ (∃ p ∈ scenarioErrStore.errors, p.2.resolved = true)
    ∧ ("e2", ({ timestamp := 20, resolved := false } : ErrStore.ErrEntry)) ∈
        scenarioErrStore.errors
    ∧ ("e2", ({ timestamp := 20, resolved := false } : ErrStore.ErrEntry)) ∉
        (ErrStore.cleanup scenarioErrStore).errors := by
  refine ⟨by decide, ⟨("e3", { timestamp := 10, resolved := true }), by decide, rfl⟩,
    by decide, by decide⟩

/-- C6 as amended.  Cleanup always leaves at most `maxErrors` entries; every
unresolved entry survives provided the unresolved entries alone do not
exceed `maxErrors` (the final truncation otherwise drops the oldest
unresolved ones too); and resolved entries are evicted oldest-first — any
evicted resolved entry is no newer than any surviving resolved entry. -/
theorem c6_retention_priority_amended (s : ErrStore.Store)
    (hcnt : (s.errors.filter (fun p => ¬ p.2.resolved)).length ≤ s.maxErrors) :
    (∀ p ∈ s.errors, p.2.resolved = false → p ∈ (ErrStore.cleanup s).errors)
    ∧ (ErrStore.cleanup s).errors.length ≤ s.maxErrors
    ∧ (∀ p q : String × ErrStore.ErrEntry,
        p ∈ (ErrStore.cleanup s).errors → p.2.resolved = true →
        q ∈ s.errors → q.2.resolved = true → q ∉ (ErrStore.cleanup s).errors →
        q.2.timestamp ≤ p.2.timestamp) := by
  by_cases hle : s.errors.length ≤ s.maxErrors
  · refine ⟨?_, ?_, ?_⟩
    · intro p hp _
      rw [ErrStore.cleanup_errors_of_le s hle]
      exact hp
    · rw [ErrStore.cleanup_errors_of_le s hle]
      exact hle
    · intro p q hp hpres hq hqres hqnot
      rw [ErrStore.cleanup_errors_of_le s hle] at hqnot
      exact absurd hq hqnot
  · have hperm : List.Perm (List.insertionSort ErrStore.newestFirst s.errors) s.errors :=
      List.perm_insertionSort _ _
    have hulen :
        ((List.insertionSort ErrStore.newestFirst s.errors).filter
          (fun p => ¬ p.2.resolved)).length ≤ s.maxErrors := by
      have hfp := hperm.filter (fun p => decide (¬ p.2.resolved))
      rw [hfp.length_eq]
      exact hcnt
    refine ⟨?_, ?_, ?_⟩
    · intro p hp hpres
      rw [ErrStore.cleanup_errors_of_gt s hle, List.take_append_eq_append_take,
        List.take_of_length_le hulen]
      refine List.mem_append_left _ ?_
      rw [List.mem_filter]
      exact ⟨hperm.symm.subset hp, by simp [hpres]⟩
    · rw [ErrStore.cleanup_errors_of_gt s hle]
      exact List.length_take_le _ _
    · intro p q hp hpres hq hqres hqnot
      rw [ErrStore.cleanup_errors_of_gt s hle, List.take_append_eq_append_take,
        List.take_of_length_le hulen] at hp hqnot
      have hsliceTake : ∃ m,
          jsSliceTo ((List.insertionSort ErrStore.newestFirst s.errors).filter
              (fun p => p.2.resolved))
            ((s.maxErrors : Int) -
              ((List.insertionSort ErrStore.newestFirst s.errors).filter
                (fun p => ¬ p.2.resolved)).length) =
          ((List.insertionSort ErrStore.newestFirst s.errors).filter
            (fun p => p.2.resolved)).take m := by
        by_cases h0 : (0 : Int) ≤ (s.maxErrors : Int) -
            ((List.insertionSort ErrStore.newestFirst s.errors).filter
              (fun p => ¬ p.2.resolved)).length
        · exact ⟨_, by rw [jsSliceTo, if_pos h0]⟩
        · exact ⟨_, by rw [jsSliceTo, if_neg h0]⟩
      obtain ⟨m0, hm0⟩ := hsliceTake
      rw [hm0, List.take_take] at hp hqnot
      have hqv : q ∈ (List.insertionSort ErrStore.newestFirst s.errors).filter
          (fun p => p.2.resolved) := by
        rw [List.mem_filter]
        exact ⟨hperm.symm.subset hq, by simp [hqres]⟩
      rcases List.mem_append.mp hp with hpu | hpv
      · rw [List.mem_filter] at hpu
        have := hpu.2
        simp [hpres] at this
      · have hqdrop : q ∈ ((List.insertionSort ErrStore.newestFirst s.errors).filter
            (fun p => p.2.resolved)).drop
              (min (s.maxErrors -
                ((List.insertionSort ErrStore.newestFirst s.errors).filter
                  (fun p => ¬ p.2.resolved)).length) m0) := by
          have hsplit := List.take_append_drop
            (min (s.maxErrors -
              ((List.insertionSort ErrStore.newestFirst s.errors).filter
                (fun p => ¬ p.2.resolved)).length) m0)
            ((List.insertionSort ErrStore.newestFirst s.errors).filter
              (fun p => p.2.resolved))
          rw [← hsplit] at hqv
          rcases List.mem_append.mp hqv with h' | h'
          · exact absurd (List.mem_append.mpr (Or.inr h')) hqnot
          · exact h'
        have hsorted : ((List.insertionSort ErrStore.newestFirst s.errors).filter
            (fun p => p.2.resolved)).Pairwise
              (fun x y => y.2.timestamp ≤ x.2.timestamp) :=
          (ErrStore.pairwise_insertionSort_desc s.errors).filter _
        have hsplit := List.take_append_drop
          (min (s.maxErrors -
            ((List.insertionSort ErrStore.newestFirst s.errors).filter
              (fun p => ¬ p.2.resolved)).length) m0)
          ((List.insertionSort ErrStore.newestFirst s.errors).filter
            (fun p => p.2.resolved))
        rw [← hsplit] at hsorted
        exact (List.pairwise_append.mp hsorted).2.2 p hpv q hqdrop

/-- Witness for the amended C6: a store with one unresolved and two resolved
entries over a bound of 2; the unresolved entry survives, the store shrinks
to the bound, and the evicted resolved entry is the older one. -/
theorem c6_retention_priority_amended_witness :
    (∀ p ∈ (ErrStore.Store.mk
        [("a", ⟨5, false⟩), ("b", ⟨1, true⟩), ("c", ⟨2, true⟩)] 2).errors,
      p.2.resolved = false →
        p ∈ (ErrStore.cleanup (ErrStore.Store.mk
          [("a", ⟨5, false⟩), ("b", ⟨1, true⟩), ("c", ⟨2, true⟩)] 2)).errors)
    ∧ (ErrStore.cleanup (ErrStore.Store.mk
        [("a", ⟨5, false⟩), ("b", ⟨1, true⟩), ("c", ⟨2, true⟩)] 2)).errors.length ≤
        (ErrStore.Store.mk
          [("a", ⟨5, false⟩), ("b", ⟨1, true⟩), ("c", ⟨2, true⟩)] 2).maxErrors
    ∧ (∀ p q : String × ErrStore.ErrEntry,
        p ∈ (ErrStore.cleanup (ErrStore.Store.mk
          [("a", ⟨5, false⟩), ("b", ⟨1, true⟩), ("c", ⟨2, true⟩)] 2)).errors →
        p.2.resolved = true →
        q ∈ (ErrStore.Store.mk
          [("a", ⟨5, false⟩), ("b", ⟨1, true⟩), ("c", ⟨2, true⟩)] 2).errors →
        q.2.resolved = true →
        q ∉ (ErrStore.cleanup (ErrStore.Store.mk
          [("a", ⟨5, false⟩), ("b", ⟨1, true⟩), ("c", ⟨2, true⟩)] 2)).errors →
        q.2.timestamp ≤ p.2.timestamp) :=
  c6_retention_priority_amended
    (ErrStore.Store.mk [("a", ⟨5, false⟩), ("b", ⟨1, true⟩), ("c", ⟨2, true⟩)] 2)
    (by decide)

section AssocLemmas2

variable {α : Type}

theorem assocLookup_assocDelete_self (l : List (String × α)) (k : String) :
    assocLookup (assocDelete l k) k = none := by
  apply assocLookup_eq_none_of_not_memKeys
  intro hmem
  obtain ⟨p, hp, hk⟩ := List.mem_map.mp hmem
  have h2 := (List.mem_filter.mp hp).2
  rw [hk] at h2
  simp at h2

theorem not_memKeys_of_assocLookup_eq_none (l : List (String × α)) (k : String)
    (h : assocLookup l k = none) : k ∉ l.map Prod.fst := by
  induction l with
  | nil => simp
  | cons p rest ih =>
    rw [assocLookup_cons] at h
    by_cases hp : p.1 = k
    · simp [hp] at h
    · rw [if_neg hp] at h
      simp only [List.map_cons, List.mem_cons]
      push_neg
      exact ⟨fun hh => hp hh.symm, ih h⟩

theorem memKeys_of_assocLookup_isSome (l : List (String × α)) (k : String)
    (h : (assocLookup l k).isSome) : k ∈ l.map Prod.fst := by
  by_contra hmem
  rw [assocLookup_eq_none_of_not_memKeys l k hmem] at h
  simp at h

theorem assocSet_length_of_memKeys (l : List (String × α)) (k : String) (v : α)
    (h : k ∈ l.map Prod.fst) : (assocSet l k v).length = l.length := by
  have := congrArg List.length (assocSet_map_fst_of_mem l k v h)
  simpa using this

theorem assocDelete_length_lt (l : List (String × α)) (k : String)
    (h : k ∈ l.map Prod.fst) : (assocDelete l k).length < l.length := by
  induction l with
  | nil => simp at h
  | cons p rest ih =>
    simp only [List.map_cons, List.mem_cons] at h
    simp only [assocDelete, List.filter_cons] at ih ⊢
    by_cases hp : p.1 = k
    · have hd : (decide (p.1 ≠ k)) = false := by simp [hp]
      rw [hd]
      simp only [Bool.false_eq_true, if_false, List.length_cons]
      exact Nat.lt_succ_of_le (List.length_filter_le _ _)
    · have hd : (decide (p.1 ≠ k)) = true := by simp [hp]
      rw [hd]
      have hk : k ∈ rest.map Prod.fst := by
        rcases h with h | h
        · exact absurd h.symm hp
        · exact h
      simp only [if_pos, List.length_cons]
      exact Nat.succ_lt_succ (ih hk)

end AssocLemmas2

namespace Cache

/-- Behaviour of the `_evictOne` scan: on a nonempty map it returns a key
present in the map together with its `lastAccess`, and no entry has a
strictly smaller `lastAccess`. -/
theorem findOldest_spec {α : Type} (l : List (String × Entry α)) (hne : l ≠ []) :
    ∃ k0 a0, findOldest l = some (k0, a0) ∧
      (∃ e0, (k0, e0) ∈ l ∧ e0.lastAccess = a0) ∧
      ∀ q ∈ l, a0 ≤ q.2.lastAccess := by
  have aux : ∀ (t : List (String × Entry α)) (k0 : String) (a0 : Int),
      ∃ k1 a1,
        t.foldl
          (fun acc p =>
            match acc with
            | none => some (p.1, p.2.lastAccess)
            | some (k0, a0) =>
              if p.2.lastAccess < a0 then some (p.1, p.2.lastAccess) else some (k0, a0))
          (some (k0, a0)) = some (k1, a1) ∧
        ((k1 = k0 ∧ a1 = a0) ∨ ∃ e1, (k1, e1) ∈ t ∧ e1.lastAccess = a1) ∧
        a1 ≤ a0 ∧ ∀ q ∈ t, a1 ≤ q.2.lastAccess := by
    intro t
    induction t with
    | nil =>
      intro k0 a0
      exact ⟨k0, a0, rfl, Or.inl ⟨rfl, rfl⟩, le_refl _, by simp⟩
    | cons p rest ih =>
      intro k0 a0
      by_cases hlt : p.2.lastAccess < a0
      · obtain ⟨k1, a1, hfold, hsrc, hle, hmin⟩ := ih p.1 p.2.lastAccess
        refine ⟨k1, a1, ?_, ?_, by omega, ?_⟩
        · rw [List.foldl_cons]
          simp only [hlt, if_pos]
          exact hfold
        · rcases hsrc with ⟨hk1, ha1⟩ | ⟨e1, he1, hea⟩
          · refine Or.inr ⟨p.2, ?_, ?_⟩
            · rw [hk1]
              exact List.mem_cons_self _ _
            · rw [ha1]
          · exact Or.inr ⟨e1, List.mem_cons_of_mem _ he1, hea⟩
        · intro q hq
          rcases List.mem_cons.mp hq with hq | hq
          · subst hq
            exact hle
          · exact hmin q hq
      · obtain ⟨k1, a1, hfold, hsrc, hle, hmin⟩ := ih k0 a0
        refine ⟨k1, a1, ?_, ?_, hle, ?_⟩
        · rw [List.foldl_cons]
          simp only [hlt, if_neg, if_false]
          exact hfold
        · rcases hsrc with hsrc | ⟨e1, he1, hea⟩
          · exact Or.inl hsrc
          · exact Or.inr ⟨e1, List.mem_cons_of_mem _ he1, hea⟩
        · intro q hq
          rcases List.mem_cons.mp hq with hq | hq
          · subst hq
            omega
          · exact hmin q hq
  cases l with
  | nil => exact absurd rfl hne
  | cons p rest =>
    obtain ⟨k1, a1, hfold, hsrc, hle, hmin⟩ := aux rest p.1 p.2.lastAccess
    refine ⟨k1, a1, ?_, ?_, ?_⟩
    · simp only [findOldest, List.foldl_cons]
      exact hfold
    · rcases hsrc with ⟨hk1, ha1⟩ | ⟨e1, he1, hea⟩
      · refine ⟨p.2, ?_, ?_⟩
        · rw [hk1]
          exact List.mem_cons_self _ _
        · rw [ha1]
      · exact ⟨e1, List.mem_cons_of_mem _ he1, hea⟩
    · intro q hq
      rcases List.mem_cons.mp hq with hq | hq
      · subst hq
        exact hle
      · exact hmin q hq

end Cache

/-- C7.  Cache TTL expiry: after `set` at `tset` with effective TTL
`customTtl || ttl`, a `get` at or before expiry returns the value, and a
`get` after expiry is a miss that also removes the entry; concretely, a
value set at 0 with `ttl=100` is a hit at 0 and a removed miss at 150. -/
theorem c7_cache_ttl_expiry {α : Type} (c : Cache.BillerSearchCache α)
    (type key : String) (v : α) (customTtl : Option Int) (tset now : Int) :
    (now ≤ tset + jsOrNum customTtl c.ttl →
      (Cache.get now type key (Cache.set tset type key v customTtl c)).1 = some v)
    ∧ (tset + jsOrNum customTtl c.ttl < now →
        (Cache.get now type key (Cache.set tset type key v customTtl c)).1 = none ∧
        assocLookup
          (Cache.get now type key (Cache.set tset type key v customTtl c)).2.entries
          (Cache.genKey type key) = none)
    ∧ (Cache.get 0 "comprobante" "k"
        (Cache.set 0 "comprobante" "k" (7 : Nat) (some 100) scenarioCache)).1 = some 7
    ∧ (Cache.get 150 "comprobante" "k"
        (Cache.set 0 "comprobante" "k" (7 : Nat) (some 100) scenarioCache)).1 = none := by
  have hlk : assocLookup (Cache.set tset type key v customTtl c).entries
      (Cache.genKey type key) =
      some { value := v, createdAt := tset, expiresAt := tset + jsOrNum customTtl c.ttl
             lastAccess := tset, hits := 0 } := by
    simp only [Cache.set]
    exact assocLookup_assocSet_self _ _ _
  refine ⟨?_, ?_, by decide, by decide⟩
  · intro h
    simp [Cache.get, hlk, not_lt.mpr h]
  · intro h
    constructor
    · simp [Cache.get, hlk, h]
    · simp only [Cache.get, hlk]
      rw [if_pos h]
      exact assocLookup_assocDelete_self _ _

/-- Witness for C7 on the concrete two-slot cache: hit at 0, removed miss at
150, for a value set at 0 with TTL 100. -/
theorem c7_cache_ttl_expiry_witness :
    (Cache.get 0 "comprobante" "k"
      (Cache.set 0 "comprobante" "k" (7 : Nat) (some 100) scenarioCache)).1 = some 7
    ∧ (Cache.get 150 "comprobante" "k"
        (Cache.set 0 "comprobante" "k" (7 : Nat) (some 100) scenarioCache)).1 = none
    ∧ assocLookup
        (Cache.get 150 "comprobante" "k"
          (Cache.set 0 "comprobante" "k" (7 : Nat) (some 100) scenarioCache)).2.entries
        (Cache.genKey "comprobante" "k") = none :=
  ⟨(c7_cache_ttl_expiry scenarioCache "comprobante" "k" 7 (some 100) 0 0).1 (by decide),
   ((c7_cache_ttl_expiry scenarioCache "comprobante" "k" 7 (some 100) 0 150).2.1 (by decide)).1,
   ((c7_cache_ttl_expiry scenarioCache "comprobante" "k" 7 (some 100) 0 150).2.1 (by decide)).2⟩

/-- C8.  Capacity bound with LRU eviction: `set` never grows the cache past
`maxSize` (given the bound held before and `maxSize ≥ 1`, as the constructor
guarantees), and inserting a fresh key into a full cache evicts exactly the
entry returned by the `_evictOne` scan — one present in the cache whose
`lastAccess` is minimal — and appends the new entry. -/
theorem c8_cache_capacity_lru {α : Type} (c : Cache.BillerSearchCache α)
    (type key : String) (v : α) (ct : Option Int) (now : Int)
    (hbound : c.entries.length ≤ c.maxSize) (hmax : 1 ≤ c.maxSize) :
    (Cache.set now type key v ct c).entries.length ≤ c.maxSize
    ∧ (c.entries.length = c.maxSize →
        assocLookup c.entries (Cache.genKey type key) = none →
        ∃ k0 a0, Cache.findOldest c.entries = some (k0, a0) ∧
          (∃ e0, (k0, e0) ∈ c.entries ∧ e0.lastAccess = a0) ∧
          (∀ q ∈ c.entries, a0 ≤ q.2.lastAccess) ∧
          (Cache.set now type key v ct c).entries =
            assocDelete c.entries k0 ++
              [(Cache.genKey type key,
                { value := v, createdAt := now, expiresAt := now + jsOrNum ct c.ttl
                  lastAccess := now, hits := 0 })]) := by
  constructor
  · by_cases hsome : (assocLookup c.entries (Cache.genKey type key)).isSome
    · obtain ⟨e, he⟩ := Option.isSome_iff_exists.mp hsome
      have hcond : (decide (c.maxSize ≤ c.entries.length) &&
          (assocLookup c.entries (Cache.genKey type key)).isNone) = false := by
        simp [he]
      have hset : (Cache.set now type key v ct c).entries =
          assocSet c.entries (Cache.genKey type key)
            { value := v, createdAt := now, expiresAt := now + jsOrNum ct c.ttl
              lastAccess := now, hits := 0 } := by
        simp [Cache.set, hcond]
      rw [hset, assocSet_length_of_memKeys _ _ _ (memKeys_of_assocLookup_isSome _ _ hsome)]
      exact hbound
    · have hnone : assocLookup c.entries (Cache.genKey type key) = none :=
        Option.not_isSome_iff_eq_none.mp hsome
      have hnotmem := not_memKeys_of_assocLookup_eq_none _ _ hnone
      by_cases hfull : c.maxSize ≤ c.entries.length
      · have hlen : c.entries.length = c.maxSize := le_antisymm hbound hfull
        have hne : c.entries ≠ [] := by
          intro h0
          rw [h0] at hlen
          simp at hlen
          omega
        obtain ⟨k0, a0, hfo, ⟨e0, he0, -⟩, -⟩ := Cache.findOldest_spec c.entries hne
        have hcond : (decide (c.maxSize ≤ c.entries.length) &&
            (assocLookup c.entries (Cache.genKey type key)).isNone) = true := by
          simp [hnone, hfull]
        have hset : (Cache.set now type key v ct c).entries =
            assocSet (Cache.evictOne c).entries (Cache.genKey type key)
              { value := v, createdAt := now, expiresAt := now + jsOrNum ct c.ttl
                lastAccess := now, hits := 0 } := by
          simp [Cache.set, hcond]
        have hev : (Cache.evictOne c).entries = assocDelete c.entries k0 := by
          simp [Cache.evictOne, hfo]
        have hnotmem2 : Cache.genKey type key ∉ (assocDelete c.entries k0).map Prod.fst := by
          intro hm
          obtain ⟨p, hp, hk⟩ := List.mem_map.mp hm
          exact hnotmem (List.mem_map.mpr ⟨p, (List.mem_filter.mp hp).1, hk⟩)
        rw [hset, hev, assocSet_of_not_memKeys _ _ _ hnotmem2]
        have hdel := assocDelete_length_lt c.entries k0
          (List.mem_map.mpr ⟨(k0, e0), he0, rfl⟩)
        simp only [List.length_append, List.length_cons, List.length_nil]
        omega
      · have hcond : (decide (c.maxSize ≤ c.entries.length) &&
            (assocLookup c.entries (Cache.genKey type key)).isNone) = false := by
          simp [hfull]
        have hset : (Cache.set now type key v ct c).entries =
            assocSet c.entries (Cache.genKey type key)
              { value := v, createdAt := now, expiresAt := now + jsOrNum ct c.ttl
                lastAccess := now, hits := 0 } := by
          simp [Cache.set, hcond]
        rw [hset, assocSet_of_not_memKeys _ _ _ hnotmem]
        simp only [List.length_append, List.length_cons, List.length_nil]
        omega
  · intro hlen hnone
    have hnotmem := not_memKeys_of_assocLookup_eq_none _ _ hnone
    have hne : c.entries ≠ [] := by
      intro h0
      rw [h0] at hlen
      simp at hlen
      omega
    obtain ⟨k0, a0, hfo, hsome0, hmin⟩ := Cache.findOldest_spec c.entries hne
    refine ⟨k0, a0, hfo, hsome0, hmin, ?_⟩
    have hcond : (decide (c.maxSize ≤ c.entries.length) &&
        (assocLookup c.entries (Cache.genKey type key)).isNone) = true := by
      simp [hnone, hlen]
    have hset : (Cache.set now type key v ct c).entries =
        assocSet (Cache.evictOne c).entries (Cache.genKey type key)
          { value := v, createdAt := now, expiresAt := now + jsOrNum ct c.ttl
            lastAccess := now, hits := 0 } := by
      simp [Cache.set, hcond]
    have hev : (Cache.evictOne c).entries = assocDelete c.entries k0 := by
      simp [Cache.evictOne, hfo]
    have hnotmem2 : Cache.genKey type key ∉ (assocDelete c.entries k0).map Prod.fst := by
      intro hm
      obtain ⟨p, hp, hk⟩ := List.mem_map.mp hm
      exact hnotmem (List.mem_map.mpr ⟨p, (List.mem_filter.mp hp).1, hk⟩)
    rw [hset, hev, assocSet_of_not_memKeys _ _ _ hnotmem2]

/-- Witness for C8: a full two-slot cache holding `t:a` (lastAccess 10) and
`t:b` (lastAccess 20); inserting `t:c` at 50 stays within the bound and
evicts exactly `t:a`, the least recently accessed entry. -/
theorem c8_cache_capacity_lru_witness :
    (Cache.set 50 "t" "c" (9 : Nat) none
      (Cache.set 20 "t" "b" 8 none (Cache.set 10 "t" "a" 7 none scenarioCache))).entries.length ≤
        (Cache.set 20 "t" "b" 8 none (Cache.set 10 "t" "a" 7 none scenarioCache)).maxSize
    ∧ ((Cache.set 20 "t" "b" 8 none
          (Cache.set 10 "t" "a" 7 none scenarioCache)).entries.length =
        (Cache.set 20 "t" "b" 8 none (Cache.set 10 "t" "a" 7 none scenarioCache)).maxSize →
        assocLookup (Cache.set 20 "t" "b" 8 none
            (Cache.set 10 "t" "a" 7 none scenarioCache)).entries
          (Cache.genKey "t" "c") = none →
        ∃ k0 a0,
          Cache.findOldest (Cache.set 20 "t" "b" 8 none
            (Cache.set 10 "t" "a" 7 none scenarioCache)).entries = some (k0, a0) ∧
          (∃ e0, (k0, e0) ∈ (Cache.set 20 "t" "b" 8 none
              (Cache.set 10 "t" "a" 7 none scenarioCache)).entries ∧
            e0.lastAccess = a0) ∧
          (∀ q ∈ (Cache.set 20 "t" "b" 8 none
              (Cache.set 10 "t" "a" 7 none scenarioCache)).entries,
            a0 ≤ q.2.lastAccess) ∧
          (Cache.set 50 "t" "c" (9 : Nat) none
              (Cache.set 20 "t" "b" 8 none
                (Cache.set 10 "t" "a" 7 none scenarioCache))).entries =
            assocDelete (Cache.set 20 "t" "b" 8 none
              (Cache.set 10 "t" "a" 7 none scenarioCache)).entries k0 ++
              [(Cache.genKey "t" "c",
                { value := 9, createdAt := 50
                  expiresAt := 50 + jsOrNum none
                    (Cache.set 20 "t" "b" 8 none
                      (Cache.set 10 "t" "a" 7 none scenarioCache)).ttl
                  lastAccess := 50, hits := 0 })]) :=
  c8_cache_capacity_lru
    (Cache.set 20 "t" "b" 8 none (Cache.set 10 "t" "a" 7 none scenarioCache))
    "t" "c" 9 none 50 (by decide) (by decide)

/-- `roundPct` computes exactly `Math.round` of the rational percentage. -/
theorem roundPct_eq_jsRound (n d : Nat) (hd : 0 < d) :
    (roundPct n d : Int) = jsRound ((n : ℚ) / (d : ℚ) * 100) := by
  have hd0 : (d : ℚ) ≠ 0 := Nat.cast_ne_zero.mpr (Nat.pos_iff_ne_zero.mp hd)
  have heq : (n : ℚ) / (d : ℚ) * 100 + 1/2 =
      (((200 * n + d : Nat) : Int) : ℚ) / ((2 * d : Nat) : ℚ) := by
    push_cast
    field_simp
    ring
  unfold jsRound
  rw [heq, Rat.floor_intCast_div_natCast]
  unfold roundPct
  rw [Int.ofNat_div]
  norm_cast

/-- C9.  A locally completed record whose remote lookups yield no remote
record is classified as a `missing_in_biller` discrepancy with CRITICAL
severity and the reissue recommendation; and the two-record scenario — one
match, one missing — reports `total=2, verificados=1, discrepancias=1`, no
errors, success rate 50, and a single CRITICAL `missing_in_biller` entry. -/
theorem c9_recon_missing_remote
    (ob : String → Except Recon.FetchErr (Option Recon.BillerComp))
    (bn : String → Except Unit (Option Recon.BillerComp)) (l : Recon.LocalComp)
    (h : Recon.lookupRemote ob bn l = Except.ok none) :
    Recon.reconRecord ob bn l = Recon.RecordOutcome.disc
      { tipo := Recon.DiscType.missing_in_biller
        severity := Recon.Severity.critical
        localRec := l
        billerRec := none
        inconsistencias := []
        mensaje := "Comprobante " ++ Recon.jsOrDisplay l.id l.key ++ " no encontrado en Biller"
        accionRecomendada := "Verificar si la emisión falló y re-emitir si es necesario" }
    ∧ (Recon.reconciliar scenarioObtener scenarioBuscar
        [scenarioLocal1, scenarioLocal2]).resumen =
        { total := 2, verificados := 1, discrepancias := 1, errores := 0, tasaExito := 50 }
    ∧ (Recon.reconciliar scenarioObtener scenarioBuscar
        [scenarioLocal1, scenarioLocal2]).discrepancias.map
          (fun d => (d.tipo, d.severity)) =
        [(Recon.DiscType.missing_in_biller, Recon.Severity.critical)]
    ∧ (Recon.reconciliar scenarioObtener scenarioBuscar
        [scenarioLocal1, scenarioLocal2]).sevCritical = 1 := by
  refine ⟨?_, by decide, by decide, by decide⟩
  simp [Recon.reconRecord, h]

/-- Witness for C9 at the scenario: `scenarioLocal2` has no remote match. -/
theorem c9_recon_missing_remote_witness :
    Recon.reconRecord scenarioObtener scenarioBuscar scenarioLocal2 =
      Recon.RecordOutcome.disc
        { tipo := Recon.DiscType.missing_in_biller
          severity := Recon.Severity.critical
          localRec := scenarioLocal2
          billerRec := none
          inconsistencias := []
          mensaje := "Comprobante " ++
            Recon.jsOrDisplay scenarioLocal2.id scenarioLocal2.key ++
            " no encontrado en Biller"
          accionRecomendada := "Verificar si la emisión falló y re-emitir si es necesario" }
    ∧ (Recon.reconciliar scenarioObtener scenarioBuscar
        [scenarioLocal1, scenarioLocal2]).resumen =
        { total := 2, verificados := 1, discrepancias := 1, errores := 0, tasaExito := 50 } :=
  ⟨(c9_recon_missing_remote scenarioObtener scenarioBuscar scenarioLocal2 rfl).1,
   (c9_recon_missing_remote scenarioObtener scenarioBuscar scenarioLocal2 rfl).2.1⟩

/-- C10.  Report consistency for every input and every oracle behaviour:
the report's total is the input length, the verified/discrepancy/error
buckets partition it exactly, and the success rate is
`Math.round(100 * verificados / total)` (`100` on an empty run). -/
theorem c10_recon_report_consistency
    (ob : String → Except Recon.FetchErr (Option Recon.BillerComp))
    (bn : String → Except Unit (Option Recon.BillerComp))
    (locals : List Recon.LocalComp) :
    (Recon.reconciliar ob bn locals).resumen.total = locals.length
    ∧ (Recon.reconciliar ob bn locals).resumen.verificados +
        (Recon.reconciliar ob bn locals).resumen.discrepancias +
        (Recon.reconciliar ob bn locals).resumen.errores =
        (Recon.reconciliar ob bn locals).resumen.total
    ∧ (Recon.reconciliar ob bn locals).resumen.tasaExito =
        (if 0 < locals.length then
          roundPct (Recon.reconciliar ob bn locals).resumen.verificados locals.length
        else 100)
    ∧ (0 < locals.length →
        ((Recon.reconciliar ob bn locals).resumen.tasaExito : Int) =
          jsRound (((Recon.reconciliar ob bn locals).resumen.verificados : ℚ) /
            (locals.length : ℚ) * 100)) := by
  have key : ∀ (os : List Recon.RecordOutcome),
      (os.filter (fun o => match o with | .verified => true | _ => false)).length +
        (os.filterMap (fun o => match o with | .disc d => some d | _ => none)).length +
        (os.filterMap (fun o => match o with | .fetchError t m => some (t, m) | _ => none)).length =
        os.length := by
    intro os
    induction os with
    | nil => rfl
    | cons o t ih =>
      cases o with
      | fetchError tt mm =>
        simp [List.filter_cons, List.filterMap_cons]
        omega
      | disc d =>
        simp [List.filter_cons, List.filterMap_cons]
        omega
      | verified =>
        simp [List.filter_cons, List.filterMap_cons]
        omega
  refine ⟨rfl, ?_, rfl, ?_⟩
  · have := key (locals.map (Recon.reconRecord ob bn))
    rw [List.length_map] at this
    exact this
  · intro hpos
    have h3 : (Recon.reconciliar ob bn locals).resumen.tasaExito =
        roundPct (Recon.reconciliar ob bn locals).resumen.verificados locals.length := by
      show (if 0 < locals.length then
          roundPct (Recon.reconciliar ob bn locals).resumen.verificados locals.length
        else 100) = _
      rw [if_pos hpos]
    rw [h3]
    exact roundPct_eq_jsRound _ _ hpos
